import Mathlib

/-!
Shallow embedding of the ThreadingLib job-scheduling core.

The C++ sources live in src/: abstractjob.(h|cpp), jobmanager.(h|cpp),
thread.(h|cpp), abstractsessionmanager.(h|cpp).  All scheduler state is
mutated under a single manager mutex, so every handler is modelled as a pure
function on an explicit state record; Qt signal emissions are modelled as
event lists returned alongside the new state.  C++ int becomes Int, QString
becomes String, QVector/QQueue become List (queue head = list head).
-/

namespace ThreadingLib

/-- Flags of thr::AbstractJob (abstractjob.h).  The mutable dependency
vector m_vspDependency is threaded explicitly through canStart below;
inside the manager model dependencies are table indices (see SJob). -/
structure AbstractJob where
  m_qsName : String
  m_iError : Int
  m_bStop : Bool
  m_bFinished : Bool
  m_bSpawned : Bool
deriving DecidableEq, Repr

/-- AbstractJob constructor (abstractjob.cpp:9-17): zero error code, all
flags cleared. -/
def AbstractJob.mkNew (name : String) : AbstractJob :=
  { m_qsName := name, m_iError := 0, m_bStop := false,
    m_bFinished := false, m_bSpawned := false }

/-- The while loop of AbstractJob::canStart (abstractjob.cpp:36-38):
while the dependency list is nonempty and its FIRST entry is finished,
remove the first entry. -/
def AbstractJob.canStartLoop : List AbstractJob → List AbstractJob
  | [] => []
  | d :: ds => if d.m_bFinished then AbstractJob.canStartLoop ds else d :: ds

/-- AbstractJob::canStart (abstractjob.cpp:34-40): prune the leading run of
finished dependencies, then return true iff the list became empty.  The
updated dependency list is returned since m_vspDependency is mutable. -/
def AbstractJob.canStart (deps : List AbstractJob) : Bool × List AbstractJob :=
  let deps2 := AbstractJob.canStartLoop deps
  (decide (deps2.length = 0), deps2)

/-- AbstractJob::cleanup (abstractjob.cpp:53-58): set the finished flag when
the error code is 0 and the stop flag is clear; otherwise leave the job
unchanged (the finished flag is never cleared here). -/
def AbstractJob.cleanup (j : AbstractJob) : AbstractJob :=
  if j.m_iError = 0 ∧ j.m_bStop = false then { j with m_bFinished := true } else j

/-- AbstractJob::stop (abstractjob.cpp:79-82): set the stop flag. -/
def AbstractJob.stop (j : AbstractJob) : AbstractJob :=
  { j with m_bStop := true }

/-- AbstractJob::reportError (abstractjob.cpp:93-96). -/
def AbstractJob.reportError (j : AbstractJob) (iErr : Int) : AbstractJob :=
  { j with m_iError := iErr }

/-- The single completion signal emitted at the end of AbstractJob::exec. -/
inductive JobSignal where
  | sigError
  | sigStopped
  | sigFinished
deriving DecidableEq, Repr

/-- AbstractJob::exec (abstractjob.cpp:62-75): reset the stop flag and the
error code, run process() and release().  The net effect of the body is
modelled by the error code procErr it leaves via reportError and the stop
flag procStop observed when it returns (set concurrently by stop()).  Then
exactly one of signalError / signalStopped / signalFinished is emitted, in
that order of precedence.  Note the finished flag is NOT reset. -/
def AbstractJob.exec (j : AbstractJob) (procErr : Int) (procStop : Bool) :
    AbstractJob × JobSignal :=
  let j2 : AbstractJob :=
    { j with m_bStop := procStop, m_iError := procErr }
  if j2.m_iError ≠ 0 then (j2, JobSignal.sigError)
  else if j2.m_bStop = true then (j2, JobSignal.sigStopped)
  else (j2, JobSignal.sigFinished)

/-- JobManager::Status (jobmanager.h:158-163). -/
inductive Status where
  | sRunning
  | sFinished
  | sStopped
  | sError
deriving DecidableEq, Repr

/-- JobManagerError (jobmanager.h:30-39). -/
inductive JobManagerError where
  | jmeNoError
  | jmeTooManyErrors
  | jmeNoJobReady
  | jmeCouldNotStart
  | jmeImplementationError
  | jmeUserDefined
deriving DecidableEq, Repr

/-- A job as stored in the manager's table m_vspJobs.  Dependencies are
shared pointers to previously appended jobs; since canStart must observe
the CURRENT finished flag of each dependency, they are modelled as indices
into the job table (the spec's backward references in submission order).
The jobs a future nextSpawnedJob drain will hand over are carried as a
list, consumed by the drain. -/
inductive SJob : Type where
  | mk : AbstractJob → List Nat → List SJob → SJob

/-- Core flags of a table job. -/
def SJob.core : SJob → AbstractJob
  | .mk c _ _ => c

/-- Dependency indices of a table job. -/
def SJob.deps : SJob → List Nat
  | .mk _ d _ => d

/-- Jobs still to be returned by nextSpawnedJob. -/
def SJob.spawns : SJob → List SJob
  | .mk _ _ s => s

/-- setSpawned (abstractjob.h:304-305) applied to a table job. -/
def SJob.markSpawned : SJob → SJob
  | .mk c d s => .mk { c with m_bSpawned := true } d s

/-- AbstractJob::stop applied to a table job. -/
def SJob.stopJob : SJob → SJob
  | .mk c d s => .mk (AbstractJob.stop c) d s

/-- A plain job with no dependencies and no spawned children. -/
def SJob.simple (name : String) : SJob :=
  .mk (AbstractJob.mkNew name) [] []

/-- State of thr::JobManager (jobmanager.h:424-494).  m_vThreads records
each Thread's m_iJobIndex (-1 when never assigned; Thread never resets it
after a job completes, thread.cpp).  m_quIdle is the FIFO of idle thread
ids (indices into m_vThreads).  The QTimer is modelled by its interval and
an active flag. -/
structure JobManager where
  m_vThreads : List Int
  m_quIdle : List Nat
  m_vspJobs : List SJob
  m_quWaiting : List Nat
  m_iStarted : Int
  m_iRunning : Int
  m_iFinished : Int
  m_iErrors : Int
  m_iAllowedErrors : Int
  m_eStatus : Status
  m_eError : JobManagerError
  m_bStop : Bool
  m_bReportJobFinish : Bool
  m_timerInterval : Int
  m_timerActive : Bool

/-- Externally visible Qt signals of JobManager, in emission order. -/
inductive Event where
  | evFinished
  | evStopped
  | evError (e : JobManagerError)
  | evJobFinished (i : Nat)
  | evProgress (p : Int)
deriving DecidableEq, Repr

/-- JobManager constructor (jobmanager.cpp:14-30) with iThreads > 0 workers
(the ideal-thread-count fallback is irrelevant to the model).  m_iErrors is
left uninitialized in C++ and first written by start(); modelled as 0. -/
def JobManager.mk0 (iThreads : Nat) : JobManager :=
  { m_vThreads := List.replicate iThreads (-1)
    m_quIdle := List.range iThreads
    m_vspJobs := []
    m_quWaiting := []
    m_iStarted := 0
    m_iRunning := 0
    m_iFinished := 0
    m_iErrors := 0
    m_iAllowedErrors := 0
    m_eStatus := Status.sFinished
    m_eError := JobManagerError.jmeNoError
    m_bStop := false
    m_bReportJobFinish := false
    m_timerInterval := 0
    m_timerActive := false }

/-- JobManager::appendJobUnsafe (jobmanager.cpp:337-341): enqueue the
current table size as waiting index, then append the job. -/
def JobManager.appendJobUnsafe (m : JobManager) (j : SJob) : JobManager :=
  { m with m_quWaiting := m.m_quWaiting ++ [m.m_vspJobs.length]
           m_vspJobs := m.m_vspJobs ++ [j] }

/-- JobManager::appendJob (jobmanager.cpp:43-48). -/
def JobManager.appendJob (m : JobManager) (j : SJob) : JobManager :=
  m.appendJobUnsafe j

/-- JobManager::clear (jobmanager.cpp:52-61): empties the table and the
waiting queue and resets m_iStarted, m_iRunning, m_bStop, m_eError — note
m_iFinished and m_iErrors are NOT touched. -/
def JobManager.clear (m : JobManager) : JobManager :=
  { m with m_vspJobs := []
           m_quWaiting := []
           m_iStarted := 0
           m_iRunning := 0
           m_bStop := false
           m_eError := JobManagerError.jmeNoError }

/-- JobManager::setAllowedErrors (jobmanager.cpp:65-68). -/
def JobManager.setAllowedErrors (m : JobManager) (iN : Int) : JobManager :=
  { m with m_iAllowedErrors := iN }

/-- JobManager::setProgressReportTimeout (jobmanager.cpp:72-75). -/
def JobManager.setProgressReportTimeout (m : JobManager) (iMS : Int) : JobManager :=
  { m with m_timerInterval := iMS }

/-- JobManager::setReportJobFinish (jobmanager.h:186-187). -/
def JobManager.setReportJobFinish (m : JobManager) (b : Bool) : JobManager :=
  { m with m_bReportJobFinish := b }

/-- JobManager::jobCount (jobmanager.h:311-312). -/
def JobManager.jobCount (m : JobManager) : Int :=
  m.m_vspJobs.length

/-- JobManager::finishedCount (jobmanager.h:317-318). -/
def JobManager.finishedCount (m : JobManager) : Int :=
  m.m_iFinished

/-- JobManager::isRunning (jobmanager.h:325-326). -/
def JobManager.isRunning (m : JobManager) : Bool :=
  m.m_eStatus = Status.sRunning

/-- JobManager::isStopped (jobmanager.h:331-332): returns the stop FLAG,
not whether m_eStatus is sStopped. -/
def JobManager.isStopped (m : JobManager) : Bool :=
  m.m_bStop

/-- JobManager::isFinished (jobmanager.h:304-305). -/
def JobManager.isFinished (m : JobManager) : Bool :=
  m.m_eStatus = Status.sFinished

/-- Finished flag of table entry i (dependency lookup through the table,
i.e. through the shared pointer). -/
def isFinishedAt (jobs : List SJob) (i : Nat) : Bool :=
  match jobs.get? i with
  | some j => j.core.m_bFinished
  | none => false

/-- The canStart pruning loop at manager level: drop the leading run of
dependency indices whose table entry is finished (abstractjob.cpp:36-38,
with the shared-pointer dereference going through the table). -/
def pruneDeps (jobs : List SJob) : List Nat → List Nat
  | [] => []
  | d :: ds => if isFinishedAt jobs d then pruneDeps jobs ds else d :: ds

/-- canStart invoked on table entry i: prunes that job's dependency list in
place and reports whether the list became empty.  An out-of-range index
(impossible in the C++ call sites) leaves the table unchanged. -/
def canStartAt (jobs : List SJob) (i : Nat) : Bool × List SJob :=
  match jobs.get? i with
  | none => (false, jobs)
  | some j =>
      let deps2 := pruneDeps jobs j.deps
      (decide (deps2.length = 0), jobs.set i (SJob.mk j.core deps2 j.spawns))

/-- The for loop of JobManager::startNext (jobmanager.cpp:276-295), with
fuel = the waiting-queue length (constant across rotations): ask the front
waiting job canStart; on true dequeue it and assign it to thread tid
(started++, running++); on false rotate it to the tail.  When the whole
queue is scanned without success fall through to the no-job-ready check
(jobmanager.cpp:297-300) and re-enqueue the idle thread. -/
def startNextLoop (tid : Nat) : Nat → JobManager → JobManager
  | 0, m =>
      let m1 := if m.m_iRunning = 0 then { m with m_eError := JobManagerError.jmeNoJobReady } else m
      { m1 with m_quIdle := m1.m_quIdle ++ [tid] }
  | fuel + 1, m =>
      match m.m_quWaiting with
      | [] =>
          let m1 := if m.m_iRunning = 0 then { m with m_eError := JobManagerError.jmeNoJobReady } else m
          { m1 with m_quIdle := m1.m_quIdle ++ [tid] }
      | front :: rest =>
          let r := canStartAt m.m_vspJobs front
          let m1 := { m with m_vspJobs := r.2 }
          if r.1 then
            { m1 with m_quWaiting := rest
                      m_vThreads := m1.m_vThreads.set tid (Int.ofNat front)
                      m_iStarted := m1.m_iStarted + 1
                      m_iRunning := m1.m_iRunning + 1 }
          else
            startNextLoop tid fuel { m1 with m_quWaiting := rest ++ [front] }

/-- JobManager::startNext (jobmanager.cpp:271-303): dequeue an idle thread;
if m_iStarted < table size, scan the waiting queue for a startable job
(assigning it to the dequeued thread); otherwise — or when the scan fails —
the thread is put back into the idle queue.  A C++ dequeue on an empty idle
queue is undefined behaviour and never happens at the call sites; modelled
as a no-op. -/
def JobManager.startNext (m : JobManager) : JobManager :=
  match m.m_quIdle with
  | [] => m
  | tid :: idleRest =>
      let m1 := { m with m_quIdle := idleRest }
      if m1.m_iStarted < (m1.m_vspJobs.length : Int) then
        startNextLoop tid m1.m_quWaiting.length m1
      else
        { m1 with m_quIdle := m1.m_quIdle ++ [tid] }

/-- n successive startNext calls (the dispatch loop of start()). -/
def startNextN : Nat → JobManager → JobManager
  | 0, m => m
  | n + 1, m => startNextN n m.startNext

/-- JobManager::handleError (jobmanager.cpp:323-333): when m_eError is set,
emit signalError — but only once m_iRunning is 0 (also setting status
sError) — and report true to the caller to block dispatch. -/
def JobManager.handleError (m : JobManager) : JobManager × Bool × List Event :=
  if m.m_eError ≠ JobManagerError.jmeNoError then
    if m.m_iRunning = 0 then
      ({ m with m_eStatus := Status.sError }, true, [Event.evError m.m_eError])
    else
      (m, true, [])
  else
    (m, false, [])

/-- JobManager::checkNext (jobmanager.cpp:233-267): trip the error budget,
bail out through handleError, honour the stop flag (transitioning to
sStopped and emitting signalStopped once running = 0), otherwise dispatch
via startNext while unfinished jobs remain, else finish (final progress
emission, timer stop, status sFinished — signalFinished itself is emitted
by handleJobFinished). -/
def JobManager.checkNext (m : JobManager) : JobManager × List Event :=
  let m0 := if 0 ≤ m.m_iAllowedErrors ∧ m.m_iAllowedErrors < m.m_iErrors then
              { m with m_eError := JobManagerError.jmeTooManyErrors }
            else m
  let r1 := m0.handleError
  if r1.2.1 then (r1.1, r1.2.2)
  else if m0.m_bStop then
    if m0.m_iRunning = 0 then
      ({ m0 with m_eStatus := Status.sStopped }, [Event.evStopped])
    else (m0, [])
  else if m0.m_iFinished < (m0.m_vspJobs.length : Int) then
    let m1 := m0.startNext
    let r2 := m1.handleError
    (r2.1, r2.2.2)
  else
    let (m1, evs1) :=
      if m0.m_timerInterval > 0 then
        ({ m0 with m_timerActive := false }, [Event.evProgress 100])
      else (m0, [])
    ({ m1 with m_eStatus := Status.sFinished }, evs1)

/-- The checkNext loop of handleJobFinished (jobmanager.cpp:212-214),
accumulating emitted events. -/
def checkNextN : Nat → JobManager → JobManager × List Event
  | 0, m => (m, [])
  | n + 1, m =>
      let r1 := m.checkNext
      let r2 := checkNextN n r1.1
      (r2.1, r1.2 ++ r2.2)

/-- The nextSpawnedJob drain of handleJobFinished (jobmanager.cpp:189-197):
each spawned job is marked spawned and appended through appendJobUnsafe to
the ttable and the waiting queue. -/
def drainSpawns (jobs : List SJob) (waiting : List Nat) :
    List SJob → List SJob × List Nat
  | [] => (jobs, waiting)
  | s :: rest =>
      drainSpawns (jobs ++ [s.markSpawned]) (waiting ++ [jobs.length]) rest

/-- The bookkeeping part of JobManager::handleJobFinished
(jobmanager.cpp:174-210), before the dispatch loop: increment m_iFinished,
locate the job through the sender thread's jobIndex, drain its spawned
jobs (emptying its spawn list), run its cleanup, re-enqueue the thread as
idle, decrement m_iRunning, count an error, optionally emit
signalJobFinished. -/
def jobFinishedBookkeeping (m : JobManager) (tid : Nat) : JobManager × List Event :=
  let m1 := { m with m_iFinished := m.m_iFinished + 1 }
  let iInd := (m1.m_vThreads.getD tid (-1)).toNat
  match m1.m_vspJobs.get? iInd with
  | none => (m1, [])
  | some job =>
      let (jobs2, waiting2) := drainSpawns m1.m_vspJobs m1.m_quWaiting job.spawns
      let cleaned := SJob.mk (AbstractJob.cleanup job.core) job.deps []
      let jobs3 := jobs2.set iInd cleaned
      let m2 := { m1 with m_vspJobs := jobs3
                          m_quWaiting := waiting2
                          m_quIdle := m1.m_quIdle ++ [tid]
                          m_iRunning := m1.m_iRunning - 1 }
      let m3 := if job.core.m_iError ≠ 0 then { m2 with m_iErrors := m2.m_iErrors + 1 } else m2
      let evs := if m3.m_bReportJobFinish then [Event.evJobFinished iInd] else []
      (m3, evs)

/-- JobManager::handleJobFinished (jobmanager.cpp:174-220): bookkeeping,
then checkNext max(1, min(waiting, idle)) times, then — if the status
became sFinished — emit signalFinished with the lock released. -/
def JobManager.handleJobFinished (m : JobManager) (tid : Nat) : JobManager × List Event :=
  let r1 := jobFinishedBookkeeping m tid
  let n := max 1 (min r1.1.m_quWaiting.length r1.1.m_quIdle.length)
  let r2 := checkNextN n r1.1
  if r2.1.m_eStatus = Status.sFinished then
    (r2.1, r1.2 ++ r2.2 ++ [Event.evFinished])
  else
    (r2.1, r1.2 ++ r2.2)

/-- The thread loop of JobManager::stop (jobmanager.cpp:160-168): for every
thread whose jobIndex is ≥ 0, forward stop() to the indexed table job. -/
def stopThreadJobs (jobs : List SJob) : List Int → List SJob
  | [] => jobs
  | t :: ts =>
      let jobs2 :=
        if 0 ≤ t then
          match jobs.get? t.toNat with
          | some j => jobs.set t.toNat j.stopJob
          | none => jobs
        else jobs
      stopThreadJobs jobs2 ts

/-- JobManager::stop (jobmanager.cpp:154-170): set the stop flag and
forward stop() to the job recorded on every thread; the status is NOT
changed here (the sStopped transition happens only inside checkNext when a
completion tick observes running = 0). -/
def JobManager.stop (m : JobManager) : JobManager :=
  { m with m_bStop := true
           m_vspJobs := stopThreadJobs m.m_vspJobs m.m_vThreads }

/-- The counter/flag/status reset lines of JobManager::start
(jobmanager.cpp:126-132). -/
def JobManager.startReset (m : JobManager) : JobManager :=
  { m with m_eStatus := Status.sRunning
           m_iErrors := 0
           m_iStarted := 0
           m_iFinished := 0
           m_iRunning := 0
           m_bStop := false
           m_eError := JobManagerError.jmeNoError }

/-- JobManager::start (jobmanager.cpp:120-150): refuse when already
running; reset counters, flags and status; an empty table finishes
immediately (emitting signalFinished before the timer lines are reached);
otherwise call startNext min(threads, jobs) times and start the progress
timer when its interval is positive. -/
def JobManager.start (m : JobManager) : JobManager × Bool × List Event :=
  if m.m_eStatus = Status.sRunning then (m, false, [])
  else
    let m1 := m.startReset
    if m1.m_vspJobs.length = 0 then
      ({ m1 with m_eStatus := Status.sFinished }, true, [Event.evFinished])
    else
      let n := min m1.m_vThreads.length m1.m_vspJobs.length
      let m2 := startNextN n m1
      let m3 := if m2.m_timerInterval > 0 then { m2 with m_timerActive := true } else m2
      (m3, true, [])

/-- AbstractSessionManager::Status (abstractsessionmanager.h:138-144). -/
inductive SMStatus where
  | sRunning
  | sPaused
  | sFinished
  | sStopped
  | sError
deriving DecidableEq, Repr

/-- State of thr::AbstractSessionManager (abstractsessionmanager.h:317-339).
The virtual members sessionCount() / allowedErrors() / initNextSession()
are supplied by the subclass and appear as explicit arguments of the
operations below. -/
structure AbstractSessionManager where
  m_eStatus : SMStatus
  m_jm : JobManager
  m_iSessionIndex : Int
  m_iSessionTimeout : Int
  m_iFinished : Int

/-- Qt signals of AbstractSessionManager; smScheduleNext records the
QTimer::singleShot(m_iSessionTimeout, startNextSession) arming
(abstractsessionmanager.cpp:101). -/
inductive SMEvent where
  | smFinished
  | smSessionFinished (i : Int)
  | smError (i : Int) (e : JobManagerError)
  | smStopped (i : Int)
  | smProgress (p : Int)
  | smScheduleNext (delayMS : Int)
deriving DecidableEq, Repr

/-- AbstractSessionManager::isRunning (abstractsessionmanager.h:168-169). -/
def AbstractSessionManager.isRunningSM (sm : AbstractSessionManager) : Bool :=
  sm.m_eStatus = SMStatus.sRunning ∨ sm.m_eStatus = SMStatus.sPaused

/-- AbstractSessionManager::handleStopped (abstractsessionmanager.cpp:119-124). -/
def AbstractSessionManager.handleStopped (sm : AbstractSessionManager) :
    AbstractSessionManager × List SMEvent :=
  ({ sm with m_eStatus := SMStatus.sStopped, m_iSessionIndex := -1 },
   [SMEvent.smStopped sm.m_iSessionIndex])

/-- AbstractSessionManager::handleError (abstractsessionmanager.cpp:110-115). -/
def AbstractSessionManager.handleErrorSM (sm : AbstractSessionManager)
    (e : JobManagerError) : AbstractSessionManager × List SMEvent :=
  ({ sm with m_eStatus := SMStatus.sError, m_iSessionIndex := -1 },
   [SMEvent.smError sm.m_iSessionIndex e])

/-- AbstractSessionManager::handleFinished (abstractsessionmanager.cpp:89-106),
invoked on the inner manager's signalFinished: an impossible state yields
jmeImplementationError; otherwise pause, emit the per-session finished
signal with the pre-increment index, increment the index, and either arm
the inter-session timer for startNextSession or — when the index has
reached sessionCount — become sFinished and emit the overall
signalFinished. -/
def AbstractSessionManager.handleFinished (sm : AbstractSessionManager)
    (sessionCount : Int) : AbstractSessionManager × List SMEvent :=
  if sm.m_eStatus ≠ SMStatus.sRunning then
    ({ sm with m_eStatus := SMStatus.sError },
     [SMEvent.smError sm.m_iSessionIndex JobManagerError.jmeImplementationError])
  else
    let sm1 := { sm with m_eStatus := SMStatus.sPaused }
    let evs := [SMEvent.smSessionFinished sm1.m_iSessionIndex]
    let sm2 := { sm1 with m_iSessionIndex := sm1.m_iSessionIndex + 1 }
    if sm2.m_iSessionIndex < sessionCount then
      (sm2, evs ++ [SMEvent.smScheduleNext sm2.m_iSessionTimeout])
    else
      ({ sm2 with m_eStatus := SMStatus.sFinished }, evs ++ [SMEvent.smFinished])

/-- AbstractSessionManager::startNextSession (abstractsessionmanager.cpp:143-157):
if the inner manager's stop flag is set go to handleStopped; otherwise
clear the inner manager, set its allowed errors from the subclass hook,
populate it via initNextSession (modelled by initF), set status sRunning
and start it, degrading to sError with jmeCouldNotStart when start
refuses.  The inner manager's own start events are delivered through the
signal connections and are returned unchanged here. -/
def AbstractSessionManager.startNextSession (sm : AbstractSessionManager)
    (allowedErr : Int) (initF : JobManager → JobManager) :
    AbstractSessionManager × List SMEvent :=
  if sm.m_jm.isStopped then sm.handleStopped
  else
    let jm1 := initF ((sm.m_jm.clear).setAllowedErrors allowedErr)
    let sm1 := { sm with m_jm := jm1, m_eStatus := SMStatus.sRunning }
    let r := sm1.m_jm.start
    let sm2 := { sm1 with m_jm := r.1 }
    if r.2.1 then (sm2, [])
    else ({ sm2 with m_eStatus := SMStatus.sError },
          [SMEvent.smError sm2.m_iSessionIndex JobManagerError.jmeCouldNotStart])

/-- Concrete scenario for C1: two workers, four trivial jobs. -/
def mC1appended : JobManager :=
  ((((JobManager.mk0 2).appendJob (SJob.simple "a")).appendJob
    (SJob.simple "b")).appendJob (SJob.simple "c")).appendJob (SJob.simple "d")

/-- After start(): jobs 0 and 1 running on threads 0 and 1, jobs 2 and 3
waiting. -/
def mC1started : JobManager := mC1appended.start.1

/-- stop() called while both workers are busy: stop flag set, both running
jobs' cancel flags forwarded. -/
def mC1stopped : JobManager := mC1started.stop

/-- Worker 0's completion tick (its job exited with error 0, cancel set). -/
def mC1tick1 : JobManager × List Event := mC1stopped.handleJobFinished 0

/-- Worker 1's completion tick: the last running job terminates while two
jobs wait and two workers are idle. -/
def mC1tick2 : JobManager × List Event := mC1tick1.1.handleJobFinished 1

/-- Concrete scenario for C6: one worker, one trivial job, run to
completion, then clear(). -/
def mC6done : JobManager :=
  ((((JobManager.mk0 1).appendJob (SJob.simple "a")).start.1).handleJobFinished 0).1

/-- The cleared manager: table emptied but m_iFinished untouched. -/
def mC6cleared : JobManager := mC6done.clear

/-- Concrete idle manager for C5: freshly constructed, nothing running. -/
def mC5idle : JobManager := JobManager.mk0 2

/-- A job whose nextSpawnedJob hands over two children then none. -/
def spawnerJob : SJob :=
  SJob.mk (AbstractJob.mkNew "parent") [] [SJob.simple "child1", SJob.simple "child2"]

/-- Concrete scenario for C8: single worker running the spawner job. -/
def mC8started : JobManager := ((JobManager.mk0 1).appendJob spawnerJob).start.1

/-- Concrete manager for the C3 witness: running, error budget 0 already
exceeded by one failed job, nothing running any more. -/
def mC3exceeded : JobManager :=
  { JobManager.mk0 1 with m_eStatus := Status.sRunning, m_iErrors := 1 }

/-- Concrete manager for the C3 witness, negative budget branch: five
failed jobs already, one job still waiting, cap disabled. -/
def mC3unlimited : JobManager :=
  { JobManager.mk0 1 with m_eStatus := Status.sRunning, m_iAllowedErrors := -1,
                          m_iErrors := 5, m_vspJobs := [SJob.simple "x"],
                          m_quWaiting := [0] }

/-- Concrete session manager for the C9 witness: mid-run at session 0. -/
def smC9 : AbstractSessionManager :=
  { m_eStatus := SMStatus.sRunning
    m_jm := JobManager.mk0 1
    m_iSessionIndex := 0
    m_iSessionTimeout := 5
    m_iFinished := 0 }

/-- A finished dependency placed BEHIND an unfinished one. -/
def jobFinC2 : AbstractJob :=
  { AbstractJob.mkNew "depFinished" with m_bFinished := true }

/-- An unfinished dependency at the head of the list. -/
def jobUnC2 : AbstractJob := AbstractJob.mkNew "depUnfinished"

/-- A job after a first, successful execution: finished flag set. -/
def jobC7run1 : AbstractJob :=
  AbstractJob.cleanup (AbstractJob.exec (AbstractJob.mkNew "j") 0 false).1

/-- The same job object executed a second time, now reporting error 1. -/
def jobC7run2 : AbstractJob :=
  AbstractJob.cleanup (AbstractJob.exec jobC7run1 1 false).1

end ThreadingLib

namespace ThreadingLib

/-- Helper: the canStart loop is exactly dropWhile on the finished flag. -/
theorem canStartLoop_eq_dropWhile (deps : List AbstractJob) :
    AbstractJob.canStartLoop deps = deps.dropWhile (fun d => d.m_bFinished) := by
  induction deps with
  | nil => rfl
  | cons d ds ih =>
      by_cases h : d.m_bFinished = true
      · simp [AbstractJob.canStartLoop, List.dropWhile, h, ih]
      · simp [AbstractJob.canStartLoop, List.dropWhile, h]

/-- C2, counterexample: with the dependency list [unfinished, finished],
canStart leaves BOTH entries in place — the finished dependency behind the
unfinished head is observed finished yet not removed, contradicting the
claim that each call removes the dependencies observed finished at check
time (dependencyCount still counts it). -/
theorem C2_counterexample_prefix_only_pruning :
    AbstractJob.canStart [jobUnC2, jobFinC2] = (false, [jobUnC2, jobFinC2]) ∧
    jobFinC2.m_bFinished = true ∧
    (AbstractJob.canStart [jobUnC2, jobFinC2]).2.length = 2 := by
  refine ⟨by decide, by decide, by decide⟩

/-- C2, amended: the default canStart returns true iff every dependency in
the list has finished = true, and each call removes exactly the maximal
leading run of finished dependencies (entries behind the first unfinished
dependency are retained even if finished). -/
theorem C2_canStart_default (deps : List AbstractJob) :
    ((AbstractJob.canStart deps).1 = true ↔ ∀ d ∈ deps, d.m_bFinished = true) ∧
    (AbstractJob.canStart deps).2 = deps.dropWhile (fun d => d.m_bFinished) := by
  constructor
  · simp only [AbstractJob.canStart, canStartLoop_eq_dropWhile, decide_eq_true_eq,
      List.length_eq_zero]
    exact List.dropWhile_eq_nil_iff
  · simp [AbstractJob.canStart, canStartLoop_eq_dropWhile]

/-- C7, counterexample: a job that succeeded once (finished = true) and is
then executed again with a body reporting error 1 ends with finished = true
AND error code = 1, because exec resets only the stop flag and the error
code and cleanup never clears the finished flag.  This refutes
"finished = true implies error code = 0 at every point of the lifecycle". -/
theorem C7_counterexample_reexec_breaks_invariant :
    jobC7run2.m_bFinished = true ∧ jobC7run2.m_iError = 1 := by
  decide

/-- C7, amended: for a job whose finished flag is still false before exec
(first execution), cleanup after exec sets finished = true iff the body
left error code 0 and the cancel flag clear, hence at that point
finished = true implies error code = 0 and cancel flag = false; moreover
cleanup in general sets finished iff (error = 0 and not cancelled) or it
was already set, and exec preserves the finished flag, so re-execution
after a successful run can violate the invariant. -/
theorem C7_cleanup_first_run (j : AbstractJob) (e : Int) (s : Bool)
    (h : j.m_bFinished = false) :
    ((AbstractJob.cleanup (AbstractJob.exec j e s).1).m_bFinished = true ↔
      (e = 0 ∧ s = false)) ∧
    ((AbstractJob.cleanup (AbstractJob.exec j e s).1).m_bFinished = true →
      (AbstractJob.cleanup (AbstractJob.exec j e s).1).m_iError = 0 ∧
      (AbstractJob.cleanup (AbstractJob.exec j e s).1).m_bStop = false) ∧
    (AbstractJob.exec j e s).1.m_bFinished = j.m_bFinished ∧
    (∀ j2 : AbstractJob, (AbstractJob.cleanup j2).m_bFinished = true ↔
      ((j2.m_iError = 0 ∧ j2.m_bStop = false) ∨ j2.m_bFinished = true)) := by
  refine ⟨?_, ?_, ?_, ?_⟩
  · by_cases he : e = 0 <;> by_cases hs : s = true <;>
      simp [AbstractJob.exec, AbstractJob.cleanup, he, hs, h]
  · by_cases he : e = 0 <;> by_cases hs : s = true <;>
      simp [AbstractJob.exec, AbstractJob.cleanup, he, hs, h]
  · by_cases he : e = 0 <;> by_cases hs : s = true <;>
      simp [AbstractJob.exec, AbstractJob.cleanup, he, hs, h]
  · intro j2
    by_cases he : j2.m_iError = 0 <;> by_cases hs : j2.m_bStop = true <;>
      simp [AbstractJob.cleanup, he, hs]

/-- Witness for C7_cleanup_first_run at a concrete fresh job. -/
theorem C7_cleanup_first_run_witness :
    (AbstractJob.mkNew "w").m_bFinished = false ∧
    ((AbstractJob.cleanup (AbstractJob.exec (AbstractJob.mkNew "w") 0 false).1).m_bFinished
      = true ↔ ((0 : Int) = 0 ∧ false = false)) :=
  ⟨by decide, (C7_cleanup_first_run (AbstractJob.mkNew "w") 0 false (by decide)).1⟩

/-- C1: the single-terminal-event guarantee fails in the code.  Two
workers, four trivial jobs, all appended and started through the public
API; stop() is called while jobs 0 and 1 run and jobs 2 and 3 wait.  The
completion tick of the FIRST worker emits nothing, but the completion tick
of the LAST running worker runs the dispatch step max(1, min(waiting=2,
idle=2)) = 2 times, and each checkNext call sees the stop flag with
running = 0 and emits signalStopped again: the run emits the terminal
stopped event TWICE. -/
theorem C1_double_terminal_emission :
    mC1appended.start.2.2 = [] ∧
    mC1tick1.2 = [] ∧
    mC1tick2.2 = [Event.evStopped, Event.evStopped] ∧
    mC1tick2.1.m_iRunning = 0 := by
  refine ⟨by decide, by decide, by decide, by decide⟩

/-- C5, counterexample: stop() on an idle manager (freshly constructed,
nothing running, status sFinished) does NOT transition the status to
sStopped — stop() only sets the stop flag and the status transition lives
exclusively in checkNext, which never runs without a completion tick. -/
theorem C5_counterexample_idle_stop :
    mC5idle.m_iRunning = 0 ∧
    mC5idle.isRunning = false ∧
    mC5idle.stop.m_eStatus = Status.sFinished ∧
    ¬ mC5idle.stop.m_eStatus = Status.sStopped := by
  refine ⟨by decide, by decide, by decide, by decide⟩

/-- C6, counterexample: one job is run to completion (m_iFinished = 1),
then clear() is called.  The table empties (jobCount = 0) but
finishedCount still reports 1, because clear() resets only m_iStarted,
m_iRunning, m_bStop and m_eError — not m_iFinished (nor m_iErrors). -/
theorem C6_counterexample_clear_keeps_finished :
    mC6done.finishedCount = 1 ∧
    mC6cleared.jobCount = 0 ∧
    mC6cleared.finishedCount = 1 ∧
    ¬ mC6cleared.finishedCount = 0 := by
  refine ⟨by decide, by decide, by decide, by decide⟩

/-- C6, amended: clear() empties the job table and the waiting queue and
resets the started and running counters (and the stop flag and the last
error kind), so jobCount() returns 0 afterwards — but the finished and
errors counters are left untouched, so finishedCount() keeps its pre-clear
value. -/
theorem C6_clear_semantics (m : JobManager) :
    m.clear.m_vspJobs = [] ∧
    m.clear.m_quWaiting = [] ∧
    m.clear.m_iStarted = 0 ∧
    m.clear.m_iRunning = 0 ∧
    m.clear.m_bStop = false ∧
    m.clear.m_eError = JobManagerError.jmeNoError ∧
    m.clear.jobCount = 0 ∧
    m.clear.m_iFinished = m.m_iFinished ∧
    m.clear.m_iErrors = m.m_iErrors ∧
    m.clear.finishedCount = m.finishedCount := by
  simp [JobManager.clear, JobManager.jobCount, JobManager.finishedCount]

/-- Helper: canStartAt preserves the table length. -/
theorem canStartAt_length (jobs : List SJob) (i : Nat) :
    (canStartAt jobs i).2.length = jobs.length := by
  unfold canStartAt
  cases h : jobs.get? i with
  | none => simp
  | some j => simp

/-- Helper: the startNext scan writes m_eError only to jmeNoJobReady
(and never touches m_iErrors or m_iAllowedErrors). -/
theorem startNextLoop_eError (tid : Nat) (fuel : Nat) (m : JobManager) :
    ((startNextLoop tid fuel m).m_eError = m.m_eError ∨
     (startNextLoop tid fuel m).m_eError = JobManagerError.jmeNoJobReady) ∧
    (startNextLoop tid fuel m).m_iErrors = m.m_iErrors ∧
    (startNextLoop tid fuel m).m_iAllowedErrors = m.m_iAllowedErrors := by
  induction fuel generalizing m with
  | zero =>
      by_cases hr : m.m_iRunning = 0 <;> simp [startNextLoop, hr]
  | succ fuel ih =>
      cases hw : m.m_quWaiting with
      | nil =>
          by_cases hr : m.m_iRunning = 0 <;> simp [startNextLoop, hw, hr]
      | cons front rest =>
          by_cases hc : (canStartAt m.m_vspJobs front).1 = true
          · simp [startNextLoop, hw, hc]
          · simp only [Bool.not_eq_true] at hc
            simp only [startNextLoop, hw, hc, Bool.false_eq_true, if_false]
            exact ih _

/-- Helper: startNext writes m_eError only to jmeNoJobReady and leaves the
error counters alone. -/
theorem startNext_eError (m : JobManager) :
    (m.startNext.m_eError = m.m_eError ∨
     m.startNext.m_eError = JobManagerError.jmeNoJobReady) ∧
    m.startNext.m_iErrors = m.m_iErrors ∧
    m.startNext.m_iAllowedErrors = m.m_iAllowedErrors := by
  cases hi : m.m_quIdle with
  | nil => simp [JobManager.startNext, hi]
  | cons tid rest =>
      by_cases hs : m.m_iStarted < (m.m_vspJobs.length : Int)
      · simp only [JobManager.startNext, hi, hs, if_true]
        exact startNextLoop_eError tid _ _
      · simp [JobManager.startNext, hi, hs]

/-- Helper: branch equation for checkNext when the error budget is
exceeded. -/
theorem checkNext_budget_eq (m : JobManager)
    (h0 : 0 ≤ m.m_iAllowedErrors) (h1 : m.m_iAllowedErrors < m.m_iErrors) :
    m.checkNext =
      if m.m_iRunning = 0 then
        ({ m with m_eError := JobManagerError.jmeTooManyErrors,
                  m_eStatus := Status.sError },
         [Event.evError JobManagerError.jmeTooManyErrors])
      else
        ({ m with m_eError := JobManagerError.jmeTooManyErrors }, []) := by
  have hb : (0 ≤ m.m_iAllowedErrors ∧ m.m_iAllowedErrors < m.m_iErrors) = True :=
    eq_true ⟨h0, h1⟩
  by_cases hr : m.m_iRunning = 0
  · have hr' : (m.m_iRunning = 0) = True := eq_true hr
    simp only [JobManager.checkNext, JobManager.handleError, hb, if_true, hr']
    simp
  · have hr' : (m.m_iRunning = 0) = False := eq_false hr
    simp only [JobManager.checkNext, JobManager.handleError, hb, if_true, hr']
    simp

/-- Helper: branch equation for checkNext when a prior error is recorded
but the budget itself is not exceeded. -/
theorem checkNext_error_eq (m : JobManager)
    (hb : ¬ (0 ≤ m.m_iAllowedErrors ∧ m.m_iAllowedErrors < m.m_iErrors))
    (he : ¬ m.m_eError = JobManagerError.jmeNoError) :
    m.checkNext =
      if m.m_iRunning = 0 then
        ({ m with m_eStatus := Status.sError }, [Event.evError m.m_eError])
      else (m, []) := by
  have hb' : (0 ≤ m.m_iAllowedErrors ∧ m.m_iAllowedErrors < m.m_iErrors) = False :=
    eq_false hb
  have he' : (m.m_eError = JobManagerError.jmeNoError) = False := eq_false he
  by_cases hr : m.m_iRunning = 0
  · have hr' : (m.m_iRunning = 0) = True := eq_true hr
    simp only [JobManager.checkNext, JobManager.handleError, hb', if_false, he',
      ne_eq, hr', if_true]
    simp
  · have hr' : (m.m_iRunning = 0) = False := eq_false hr
    simp only [JobManager.checkNext, JobManager.handleError, hb', if_false, he',
      ne_eq, hr', if_true]
    simp

/-- Helper: branch equation for checkNext when the stop flag is observed
with no error recorded. -/
theorem checkNext_stop_eq (m : JobManager)
    (hb : ¬ (0 ≤ m.m_iAllowedErrors ∧ m.m_iAllowedErrors < m.m_iErrors))
    (he : m.m_eError = JobManagerError.jmeNoError)
    (hs : m.m_bStop = true) :
    m.checkNext =
      if m.m_iRunning = 0 then
        ({ m with m_eStatus := Status.sStopped }, [Event.evStopped])
      else (m, []) := by
  have hb' : (0 ≤ m.m_iAllowedErrors ∧ m.m_iAllowedErrors < m.m_iErrors) = False :=
    eq_false hb
  have he' : (m.m_eError = JobManagerError.jmeNoError) = True := eq_true he
  by_cases hr : m.m_iRunning = 0
  · have hr' : (m.m_iRunning = 0) = True := eq_true hr
    simp only [JobManager.checkNext, JobManager.handleError, hb', if_false, he',
      ne_eq, hs, hr', if_true]
    simp
  · have hr' : (m.m_iRunning = 0) = False := eq_false hr
    simp only [JobManager.checkNext, JobManager.handleError, hb', if_false, he',
      ne_eq, hs, hr', if_true]
    simp

/-- Helper: branch equation for checkNext in the dispatch case: no budget
trip, no recorded error, no stop flag, unfinished jobs remain. -/
theorem checkNext_dispatch_eq (m : JobManager)
    (hb : ¬ (0 ≤ m.m_iAllowedErrors ∧ m.m_iAllowedErrors < m.m_iErrors))
    (he : m.m_eError = JobManagerError.jmeNoError)
    (hs : m.m_bStop = false)
    (hf : m.m_iFinished < (m.m_vspJobs.length : Int)) :
    m.checkNext = (m.startNext.handleError.1, m.startNext.handleError.2.2) := by
  have hb' : (0 ≤ m.m_iAllowedErrors ∧ m.m_iAllowedErrors < m.m_iErrors) = False :=
    eq_false hb
  have he' : (m.m_eError = JobManagerError.jmeNoError) = True := eq_true he
  have hf' : (m.m_iFinished < (m.m_vspJobs.length : Int)) = True := eq_true hf
  simp only [JobManager.checkNext, hb', if_false, JobManager.handleError, he',
    ne_eq, hs, hf', if_true]
  simp

/-- Helper: branch equation for checkNext in the completion case: nothing
left to run, status becomes sFinished (with the final progress emission
when the timer interval is positive). -/
theorem checkNext_complete_eq (m : JobManager)
    (hb : ¬ (0 ≤ m.m_iAllowedErrors ∧ m.m_iAllowedErrors < m.m_iErrors))
    (he : m.m_eError = JobManagerError.jmeNoError)
    (hs : m.m_bStop = false)
    (hf : ¬ m.m_iFinished < (m.m_vspJobs.length : Int)) :
    m.checkNext =
      if m.m_timerInterval > 0 then
        ({ m with m_timerActive := false, m_eStatus := Status.sFinished },
         [Event.evProgress 100])
      else ({ m with m_eStatus := Status.sFinished }, []) := by
  have hb' : (0 ≤ m.m_iAllowedErrors ∧ m.m_iAllowedErrors < m.m_iErrors) = False :=
    eq_false hb
  have he' : (m.m_eError = JobManagerError.jmeNoError) = True := eq_true he
  have hf' : (m.m_iFinished < (m.m_vspJobs.length : Int)) = False := eq_false hf
  by_cases ht : m.m_timerInterval > 0
  · have ht' : (m.m_timerInterval > 0) = True := eq_true ht
    simp only [JobManager.checkNext, hb', if_false, JobManager.handleError, he',
      ne_eq, hs, hf', ht', if_true]
    simp
  · have ht' : (m.m_timerInterval > 0) = False := eq_false ht
    simp only [JobManager.checkNext, hb', if_false, JobManager.handleError, he',
      ne_eq, hs, hf', ht', if_true]
    simp

/-- C3: once allowed_errors is non-negative and the error count exceeds it,
checkNext starts nothing (started, running and the waiting queue are
untouched), records jmeTooManyErrors, and emits signalError with kind
TooManyErrors exactly at the tick where the running count is zero (in-flight
jobs before that tick produce no emission and no dispatch); a negative
allowed_errors disables the cap: checkNext then behaves identically for
every value of the error counter. -/
theorem C3_error_budget (m : JobManager) :
    (0 ≤ m.m_iAllowedErrors → m.m_iAllowedErrors < m.m_iErrors →
      (m.checkNext.1.m_iStarted = m.m_iStarted ∧
       m.checkNext.1.m_iRunning = m.m_iRunning ∧
       m.checkNext.1.m_quWaiting = m.m_quWaiting ∧
       m.checkNext.1.m_eError = JobManagerError.jmeTooManyErrors ∧
       (m.m_iRunning = 0 →
         m.checkNext.2 = [Event.evError JobManagerError.jmeTooManyErrors] ∧
         m.checkNext.1.m_eStatus = Status.sError) ∧
       (¬ m.m_iRunning = 0 →
         m.checkNext.2 = [] ∧ m.checkNext.1.m_eStatus = m.m_eStatus))) ∧
    (m.m_iAllowedErrors < 0 →
      ((m.checkNext.1.m_eError = JobManagerError.jmeTooManyErrors →
         m.m_eError = JobManagerError.jmeTooManyErrors) ∧
       (m.m_eError = JobManagerError.jmeNoError → m.m_bStop = false →
         m.m_iFinished < (m.m_vspJobs.length : Int) →
         m.checkNext = (m.startNext.handleError.1, m.startNext.handleError.2.2)))) := by
  constructor
  · intro h1 h2
    rw [checkNext_budget_eq m h1 h2]
    by_cases hr : m.m_iRunning = 0
    · simp [hr]
    · simp [hr]
  · intro hneg
    have hbudget : ¬ (0 ≤ m.m_iAllowedErrors ∧ m.m_iAllowedErrors < m.m_iErrors) := by
      intro h
      omega
    constructor
    · intro htme
      by_cases herr : m.m_eError = JobManagerError.jmeNoError
      · by_cases hstop : m.m_bStop = true
        · rw [checkNext_stop_eq m hbudget herr hstop] at htme
          by_cases hr : m.m_iRunning = 0 <;> simp [hr] at htme <;> exact htme
        · have hstop' : m.m_bStop = false := by
            simpa using hstop
          by_cases hfin : m.m_iFinished < (m.m_vspJobs.length : Int)
          · rw [checkNext_dispatch_eq m hbudget herr hstop' hfin] at htme
            have h2 : m.startNext.handleError.1.m_eError = m.startNext.m_eError := by
              unfold JobManager.handleError
              by_cases h3 : m.startNext.m_eError = JobManagerError.jmeNoError <;>
                by_cases h4 : m.startNext.m_iRunning = 0 <;> simp [h3, h4]
            rcases (startNext_eError m).1 with hse | hse
            · rw [show (m.startNext.handleError.1, m.startNext.handleError.2.2).1
                    = m.startNext.handleError.1 from rfl, h2, hse] at htme
              exact htme
            · rw [show (m.startNext.handleError.1, m.startNext.handleError.2.2).1
                    = m.startNext.handleError.1 from rfl, h2, hse] at htme
              exact absurd htme (by decide)
          · rw [checkNext_complete_eq m hbudget herr hstop' hfin] at htme
            by_cases ht : m.m_timerInterval > 0 <;> simp [ht] at htme <;>
              exact absurd (htme ▸ herr) (by simp [htme])
      · rw [checkNext_error_eq m hbudget herr] at htme
        by_cases hr : m.m_iRunning = 0 <;> simp [hr] at htme <;> exact htme
    · intro herr hstop hfin
      exact checkNext_dispatch_eq m hbudget herr hstop hfin

/-- Witness for C3_error_budget: with budget 0 and one failed job while
idle, the tick emits signalError(TooManyErrors) and dispatches nothing;
with budget -1 and the same failed job the tick still proceeds to the
dispatch step. -/
theorem C3_error_budget_witness :
    (mC3exceeded.checkNext.2 = [Event.evError JobManagerError.jmeTooManyErrors] ∧
     mC3exceeded.checkNext.1.m_eStatus = Status.sError) ∧
    (mC3unlimited.checkNext =
      (mC3unlimited.startNext.handleError.1, mC3unlimited.startNext.handleError.2.2)) :=
  ⟨((C3_error_budget mC3exceeded).1 (by decide) (by decide)).2.2.2.2.1 (by decide),
   ((C3_error_budget mC3unlimited).2 (by decide)).2 (by decide) (by decide) (by decide)⟩

/-- Helper: one step of the stop-forwarding loop preserves the table
length. -/
theorem stopThreadJobs_length (ts : List Int) (jobs : List SJob) :
    (stopThreadJobs jobs ts).length = jobs.length := by
  induction ts generalizing jobs with
  | nil => simp [stopThreadJobs]
  | cons t ts ih =>
      simp only [stopThreadJobs]
      by_cases ht : 0 ≤ t
      · cases hj : jobs.get? t.toNat with
        | none => simp [ht, hj, ih]
        | some j => simp [ht, hj, ih]
      · simp [ht, ih]

/-- Helper: stopJob sets the stop flag. -/
theorem stopJob_core_stop (j : SJob) : j.stopJob.core.m_bStop = true := by
  cases j
  simp [SJob.stopJob, SJob.core, AbstractJob.stop]

/-- Helper: a table entry whose stop flag is already set keeps it through
the stop-forwarding loop. -/
theorem stopThreadJobs_mono (ts : List Int) (jobs : List SJob) (i : Nat)
    (h : (jobs.get? i).map (fun j => j.core.m_bStop) = some true) :
    ((stopThreadJobs jobs ts).get? i).map (fun j => j.core.m_bStop) = some true := by
  induction ts generalizing jobs with
  | nil => simpa [stopThreadJobs] using h
  | cons t ts ih =>
      simp only [stopThreadJobs]
      apply ih
      by_cases ht : 0 ≤ t
      · cases hj : jobs.get? t.toNat with
        | none => simpa [ht, hj] using h
        | some j =>
            simp only [ht, hj, if_true]
            by_cases hi : t.toNat = i
            · subst hi
              rcases List.get?_eq_some.mp hj with ⟨hlt, _⟩
              rw [List.get?_set_eq_of_lt _ hlt]
              simp [stopJob_core_stop]
            · rw [List.get?_set_ne _ _ hi]
              exact h
      · simpa [ht] using h

/-- Helper: the stop-forwarding loop of JobManager::stop sets the stop
flag of every table entry whose index is recorded on some thread. -/
theorem stopThreadJobs_sets (ts : List Int) (jobs : List SJob) (t : Int)
    (hmem : t ∈ ts) (ht : 0 ≤ t) (hlen : t.toNat < jobs.length) :
    ((stopThreadJobs jobs ts).get? t.toNat).map (fun j => j.core.m_bStop) = some true := by
  induction ts generalizing jobs with
  | nil => cases hmem
  | cons t2 ts ih =>
      simp only [stopThreadJobs]
      rcases List.mem_cons.mp hmem with heq | hmem2
      · subst heq
        apply stopThreadJobs_mono
        cases hj : jobs.get? t.toNat with
        | none =>
            have := List.get?_eq_none.mp hj
            omega
        | some j =>
            simp only [ht, hj, if_true]
            rw [List.get?_set_eq_of_lt _ hlen]
            simp [stopJob_core_stop]
      · by_cases ht2 : 0 ≤ t2
        · cases hj : jobs.get? t2.toNat with
          | none =>
              simp only [ht2, hj, if_true]
              exact ih jobs hmem2 hlen
          | some j =>
              simp only [ht2, hj, if_true]
              exact ih _ hmem2 (by simpa using hlen)
        · simp only [ht2, if_false]
          exact ih jobs hmem2 hlen

/-- C5, amended: stop() sets the stop flag, forwards stop() to every job
whose table index is recorded on a worker thread, and does NOT change the
status or any counter or the waiting queue; once the stop flag is set, a
dispatch tick (checkNext, with no error recorded and the budget intact)
starts no waiting job, leaves the state untouched while jobs are still
running, and transitions the status to sStopped (emitting signalStopped)
exactly at a tick where the running count is zero.  stop() on an idle
manager therefore changes only the flags, never the status. -/
theorem C5_stop_semantics (m : JobManager) :
    m.stop.m_bStop = true ∧
    m.stop.m_eStatus = m.m_eStatus ∧
    m.stop.m_quWaiting = m.m_quWaiting ∧
    m.stop.m_iStarted = m.m_iStarted ∧
    m.stop.m_iRunning = m.m_iRunning ∧
    (∀ t : Int, t ∈ m.m_vThreads → 0 ≤ t → t.toNat < m.m_vspJobs.length →
      (m.stop.m_vspJobs.get? t.toNat).map (fun j => j.core.m_bStop) = some true) ∧
    (m.m_bStop = true → m.m_eError = JobManagerError.jmeNoError →
      ¬ (0 ≤ m.m_iAllowedErrors ∧ m.m_iAllowedErrors < m.m_iErrors) →
      m.checkNext = if m.m_iRunning = 0
        then ({ m with m_eStatus := Status.sStopped }, [Event.evStopped])
        else (m, [])) := by
  refine ⟨rfl, rfl, rfl, rfl, rfl, ?_, ?_⟩
  · intro t hmem ht hlen
    exact stopThreadJobs_sets m.m_vThreads m.m_vspJobs t hmem ht hlen
  · intro hs he hb
    exact checkNext_stop_eq m hb he hs

/-- Witness for C5_stop_semantics: in the concrete stopped run, the job on
worker 0 has its cancel flag forwarded, and the dispatch tick with two
jobs still running changes nothing and emits nothing. -/
theorem C5_stop_semantics_witness :
    ((mC1started.stop.m_vspJobs.get? (0 : Int).toNat).map (fun j => j.core.m_bStop)
      = some true) ∧
    mC1stopped.checkNext = (mC1stopped, []) := by
  constructor
  · exact (C5_stop_semantics mC1started).2.2.2.2.2.1 0 (by decide) (by decide) (by decide)
  · exact ((C5_stop_semantics mC1stopped).2.2.2.2.2.2 (by decide) (by decide)
      (by decide)).trans (if_neg (by decide))

/-- Helper: field equations of the start() reset step. -/
theorem startReset_fields (m : JobManager) :
    m.startReset.m_vThreads = m.m_vThreads ∧
    m.startReset.m_quIdle = m.m_quIdle ∧
    m.startReset.m_vspJobs = m.m_vspJobs ∧
    m.startReset.m_quWaiting = m.m_quWaiting ∧
    m.startReset.m_iStarted = 0 ∧
    m.startReset.m_iRunning = 0 ∧
    m.startReset.m_iFinished = 0 ∧
    m.startReset.m_iErrors = 0 ∧
    m.startReset.m_eStatus = Status.sRunning ∧
    m.startReset.m_bStop = false ∧
    m.startReset.m_timerInterval = m.m_timerInterval ∧
    m.startReset.m_timerActive = m.m_timerActive :=
  ⟨rfl, rfl, rfl, rfl, rfl, rfl, rfl, rfl, rfl, rfl, rfl, rfl⟩

/-- Helper: one startNext scan preserves all manager state except that it
may start exactly one waiting job (started and running up by one, waiting
queue shorter by one). -/
theorem startNextLoop_spec (tid : Nat) (fuel : Nat) (m : JobManager) :
    ((startNextLoop tid fuel m).m_iFinished = m.m_iFinished ∧
     (startNextLoop tid fuel m).m_iErrors = m.m_iErrors ∧
     (startNextLoop tid fuel m).m_eStatus = m.m_eStatus ∧
     (startNextLoop tid fuel m).m_bStop = m.m_bStop ∧
     (startNextLoop tid fuel m).m_timerInterval = m.m_timerInterval ∧
     (startNextLoop tid fuel m).m_timerActive = m.m_timerActive ∧
     (startNextLoop tid fuel m).m_vspJobs.length = m.m_vspJobs.length) ∧
    (((startNextLoop tid fuel m).m_iStarted = m.m_iStarted ∧
      (startNextLoop tid fuel m).m_iRunning = m.m_iRunning ∧
      (startNextLoop tid fuel m).m_quWaiting.length = m.m_quWaiting.length) ∨
     ((startNextLoop tid fuel m).m_iStarted = m.m_iStarted + 1 ∧
      (startNextLoop tid fuel m).m_iRunning = m.m_iRunning + 1 ∧
      (startNextLoop tid fuel m).m_quWaiting.length + 1 = m.m_quWaiting.length)) := by
  induction fuel generalizing m with
  | zero =>
      by_cases hr : m.m_iRunning = 0 <;> simp [startNextLoop, hr]
  | succ fuel ih =>
      cases hw : m.m_quWaiting with
      | nil =>
          by_cases hr : m.m_iRunning = 0 <;> simp [startNextLoop, hw, hr]
      | cons front rest =>
          by_cases hc : (canStartAt m.m_vspJobs front).1 = true
          · simp [startNextLoop, hw, hc, canStartAt_length]
          · simp only [Bool.not_eq_true] at hc
            simp only [startNextLoop, hw, hc, Bool.false_eq_true, if_false]
            have h2 := ih { m with m_vspJobs := (canStartAt m.m_vspJobs front).2
                                   m_quWaiting := rest ++ [front] }
            refine ⟨?_, ?_⟩
            · simpa [canStartAt_length] using h2.1
            · rcases h2.2 with h3 | h3
              · left
                refine ⟨by simpa using h3.1, by simpa using h3.2.1, ?_⟩
                have h4 := h3.2.2
                simp only [List.length_append, List.length_cons,
                  List.length_nil] at h4 ⊢
                omega
              · right
                refine ⟨by simpa using h3.1, by simpa using h3.2.1, ?_⟩
                have h4 := h3.2.2
                simp only [List.length_append, List.length_cons,
                  List.length_nil] at h4 ⊢
                omega

/-- Helper: startNext preserves all manager state except that it may start
exactly one waiting job. -/
theorem startNext_spec (m : JobManager) :
    (m.startNext.m_iFinished = m.m_iFinished ∧
     m.startNext.m_iErrors = m.m_iErrors ∧
     m.startNext.m_eStatus = m.m_eStatus ∧
     m.startNext.m_bStop = m.m_bStop ∧
     m.startNext.m_timerInterval = m.m_timerInterval ∧
     m.startNext.m_timerActive = m.m_timerActive ∧
     m.startNext.m_vspJobs.length = m.m_vspJobs.length) ∧
    ((m.startNext.m_iStarted = m.m_iStarted ∧
      m.startNext.m_iRunning = m.m_iRunning ∧
      m.startNext.m_quWaiting.length = m.m_quWaiting.length) ∨
     (m.startNext.m_iStarted = m.m_iStarted + 1 ∧
      m.startNext.m_iRunning = m.m_iRunning + 1 ∧
      m.startNext.m_quWaiting.length + 1 = m.m_quWaiting.length)) := by
  cases hi : m.m_quIdle with
  | nil => simp [JobManager.startNext, hi]
  | cons tid rest =>
      by_cases hs : m.m_iStarted < (m.m_vspJobs.length : Int)
      · simp only [JobManager.startNext, hi, hs, if_true]
        exact startNextLoop_spec tid _ _
      · simp [JobManager.startNext, hi, hs]

/-- Helper: n startNext calls start at most n jobs, each consuming one
waiting-queue entry, and leave the remaining manager state alone. -/
theorem startNextN_spec (n : Nat) (m : JobManager) :
    ∃ k : Nat, k ≤ n ∧
      (startNextN n m).m_iStarted = m.m_iStarted + (k : Int) ∧
      (startNextN n m).m_iRunning = m.m_iRunning + (k : Int) ∧
      (startNextN n m).m_quWaiting.length + k = m.m_quWaiting.length ∧
      (startNextN n m).m_iFinished = m.m_iFinished ∧
      (startNextN n m).m_iErrors = m.m_iErrors ∧
      (startNextN n m).m_eStatus = m.m_eStatus ∧
      (startNextN n m).m_bStop = m.m_bStop ∧
      (startNextN n m).m_timerInterval = m.m_timerInterval ∧
      (startNextN n m).m_timerActive = m.m_timerActive ∧
      (startNextN n m).m_vspJobs.length = m.m_vspJobs.length := by
  induction n generalizing m with
  | zero => exact ⟨0, by simp [startNextN]⟩
  | succ n ih =>
      obtain ⟨k, hk, h1, h2, h3, h4, h5, h6, h7, h8, h9, h10⟩ := ih m.startNext
      obtain ⟨hp, hd⟩ := startNext_spec m
      rcases hd with ⟨e1, e2, e3⟩ | ⟨e1, e2, e3⟩
      · refine ⟨k, by omega, ?_, ?_, ?_, ?_, ?_, ?_, ?_, ?_, ?_, ?_⟩ <;>
          simp only [startNextN]
        · rw [h1, e1]
        · rw [h2, e2]
        · omega
        · rw [h4, hp.1]
        · rw [h5, hp.2.1]
        · rw [h6, hp.2.2.1]
        · rw [h7, hp.2.2.2.1]
        · rw [h8, hp.2.2.2.2.1]
        · rw [h9, hp.2.2.2.2.2.1]
        · rw [h10, hp.2.2.2.2.2.2]
      · refine ⟨k + 1, by omega, ?_, ?_, ?_, ?_, ?_, ?_, ?_, ?_, ?_, ?_⟩ <;>
          simp only [startNextN]
        · rw [h1, e1]
          omega
        · rw [h2, e2]
          omega
        · omega
        · rw [h4, hp.1]
        · rw [h5, hp.2.1]
        · rw [h6, hp.2.2.1]
        · rw [h7, hp.2.2.2.1]
        · rw [h8, hp.2.2.2.2.1]
        · rw [h9, hp.2.2.2.2.2.1]
        · rw [h10, hp.2.2.2.2.2.2]

/-- C4: start() returns false and changes nothing when already sRunning;
otherwise it resets the counters (started, finished, running, errors), the
flags and the status, and (a) on an empty job table immediately sets the
status to sFinished, emits signalFinished and returns true, and (b) on a
nonempty table returns true with status sRunning, emitting nothing, having
dispatched up to min(workers, waiting) jobs (started = running is bounded
by the thread count and by the prior waiting-queue length), and arming the
progress timer exactly when its interval is positive. -/
theorem C4_start_semantics (m : JobManager) :
    (m.m_eStatus = Status.sRunning → m.start = (m, false, [])) ∧
    (¬ m.m_eStatus = Status.sRunning → m.m_vspJobs = [] →
      (m.start.2.1 = true ∧ m.start.2.2 = [Event.evFinished] ∧
       m.start.1.m_eStatus = Status.sFinished ∧
       m.start.1.m_iStarted = 0 ∧ m.start.1.m_iFinished = 0 ∧
       m.start.1.m_iRunning = 0 ∧ m.start.1.m_iErrors = 0)) ∧
    (¬ m.m_eStatus = Status.sRunning → ¬ m.m_vspJobs = [] →
      (m.start.2.1 = true ∧ m.start.2.2 = [] ∧
       m.start.1.m_eStatus = Status.sRunning ∧
       m.start.1.m_iFinished = 0 ∧ m.start.1.m_iErrors = 0 ∧
       m.start.1.m_bStop = false ∧
       m.start.1.m_iStarted = m.start.1.m_iRunning ∧
       0 ≤ m.start.1.m_iStarted ∧
       m.start.1.m_iStarted ≤ (m.m_vThreads.length : Int) ∧
       m.start.1.m_iStarted ≤ (m.m_quWaiting.length : Int) ∧
       m.start.1.m_timerActive =
         (if m.m_timerInterval > 0 then true else m.m_timerActive))) := by
  refine ⟨?_, ?_, ?_⟩
  · intro hrun
    simp [JobManager.start, hrun]
  · intro hrun hempty
    have h0 : (m.m_eStatus = Status.sRunning) = False := eq_false hrun
    have h1 : (m.startReset.m_vspJobs.length = 0) = True := by
      simp [JobManager.startReset, hempty]
    simp only [JobManager.start, h0, if_false, h1, if_true]
    simp [JobManager.startReset]
  · intro hrun hne
    have h0 : (m.m_eStatus = Status.sRunning) = False := eq_false hrun
    have h1 : (m.startReset.m_vspJobs.length = 0) = False := by
      simp only [JobManager.startReset]
      simpa using hne
    obtain ⟨k, hk, e1, e2, e3, e4, e5, e6, e7, e8, e9, e10⟩ :=
      startNextN_spec (min m.startReset.m_vThreads.length m.startReset.m_vspJobs.length)
        m.startReset
    have hf := startReset_fields m
    have hstart0 : m.start.1 =
        (if (startNextN
              (min m.startReset.m_vThreads.length m.startReset.m_vspJobs.length)
              m.startReset).m_timerInterval > 0 then
          { startNextN
              (min m.startReset.m_vThreads.length m.startReset.m_vspJobs.length)
              m.startReset with m_timerActive := true }
         else
          startNextN
            (min m.startReset.m_vThreads.length m.startReset.m_vspJobs.length)
            m.startReset) := by
      simp [JobManager.start, h0, h1]
    have hstart1 : m.start.2.1 = true := by
      simp [JobManager.start, h0, h1]
    have hstart2 : m.start.2.2 = [] := by
      simp [JobManager.start, h0, h1]
    have hkthreads : (k : Int) ≤ (m.m_vThreads.length : Int) := by
      have h2 : k ≤ m.m_vThreads.length := by
        calc k ≤ min m.startReset.m_vThreads.length m.startReset.m_vspJobs.length := hk
        _ ≤ m.startReset.m_vThreads.length := Nat.min_le_left _ _
        _ = m.m_vThreads.length := by rw [hf.1]
      exact_mod_cast h2
    have hkwait : (k : Int) ≤ (m.m_quWaiting.length : Int) := by
      have h2 : k ≤ m.m_quWaiting.length := by
        rw [← hf.2.2.2.1]
        omega
      exact_mod_cast h2
    by_cases ht : (startNextN
        (min m.startReset.m_vThreads.length m.startReset.m_vspJobs.length)
        m.startReset).m_timerInterval > 0
    · have ht2 : m.m_timerInterval > 0 := by
        rw [← hf.2.2.2.2.2.2.2.2.2.2.1, ← e8]
        exact ht
      rw [hstart0, if_pos ht]
      refine ⟨hstart1, hstart2, ?_, ?_, ?_, ?_, ?_, ?_, ?_, ?_, ?_⟩
      · show (startNextN _ m.startReset).m_eStatus = Status.sRunning
        rw [e6, hf.2.2.2.2.2.2.2.2.1]
      · show (startNextN _ m.startReset).m_iFinished = 0
        rw [e4, hf.2.2.2.2.2.2.1]
      · show (startNextN _ m.startReset).m_iErrors = 0
        rw [e5, hf.2.2.2.2.2.2.2.1]
      · show (startNextN _ m.startReset).m_bStop = false
        rw [e7, hf.2.2.2.2.2.2.2.2.2.1]
      · show (startNextN _ m.startReset).m_iStarted =
          (startNextN _ m.startReset).m_iRunning
        rw [e1, e2, hf.2.2.2.2.1, hf.2.2.2.2.2.1]
      · show (0 : Int) ≤ (startNextN _ m.startReset).m_iStarted
        rw [e1, hf.2.2.2.2.1]
        omega
      · show (startNextN _ m.startReset).m_iStarted ≤ (m.m_vThreads.length : Int)
        rw [e1, hf.2.2.2.2.1]
        omega
      · show (startNextN _ m.startReset).m_iStarted ≤ (m.m_quWaiting.length : Int)
        rw [e1, hf.2.2.2.2.1]
        omega
      · show true = _
        rw [if_pos ht2]
    · have ht2 : ¬ m.m_timerInterval > 0 := by
        rw [← hf.2.2.2.2.2.2.2.2.2.2.1, ← e8]
        exact ht
      rw [hstart0, if_neg ht]
      refine ⟨hstart1, hstart2, ?_, ?_, ?_, ?_, ?_, ?_, ?_, ?_, ?_⟩
      · rw [e6, hf.2.2.2.2.2.2.2.2.1]
      · rw [e4, hf.2.2.2.2.2.2.1]
      · rw [e5, hf.2.2.2.2.2.2.2.1]
      · rw [e7, hf.2.2.2.2.2.2.2.2.2.1]
      · rw [e1, e2, hf.2.2.2.2.1, hf.2.2.2.2.2.1]
      · rw [e1, hf.2.2.2.2.1]
        omega
      · rw [e1, hf.2.2.2.2.1]
        omega
      · rw [e1, hf.2.2.2.2.1]
        omega
      · rw [if_neg ht2, e9, hf.2.2.2.2.2.2.2.2.2.2.2]

/-- Witness for C4_start_semantics at three concrete managers: an
already-running manager, an empty idle manager, and the four-job idle
manager. -/
theorem C4_start_semantics_witness :
    JobManager.start { JobManager.mk0 1 with m_eStatus := Status.sRunning } =
      ({ JobManager.mk0 1 with m_eStatus := Status.sRunning }, false, []) ∧
    (JobManager.mk0 1).start.2.2 = [Event.evFinished] ∧
    mC1appended.start.2.1 = true := by
  refine ⟨?_, ?_, ?_⟩
  · exact (C4_start_semantics _).1 (by decide)
  · exact ((C4_start_semantics (JobManager.mk0 1)).2.1 (by decide) rfl).2.1
  · exact ((C4_start_semantics mC1appended).2.2 (by decide)
      (fun h => absurd (congrArg List.length h) (by decide))).1

/-- Helper: closed form of the nextSpawnedJob drain: the spawned jobs are
marked and appended in order at the table tail, and their (pre-drain) table
indices are enqueued at the waiting-queue tail. -/
theorem drainSpawns_eq (l : List SJob) (jobs : List SJob) (waiting : List Nat) :
    drainSpawns jobs waiting l =
      (jobs ++ l.map SJob.markSpawned,
       waiting ++ (List.range l.length).map (fun k => jobs.length + k)) := by
  induction l generalizing jobs waiting with
  | nil => simp [drainSpawns]
  | cons s rest ih =>
      simp only [drainSpawns, ih, List.map_cons, List.length_cons]
      refine congrArg₂ Prod.mk ?_ ?_
      · simp
      · rw [List.range_succ_eq_map, List.append_assoc]
        simp only [List.map_cons, List.map_map, List.singleton_append,
          List.length_append, List.length_cons, List.length_nil, Nat.add_zero,
          Function.comp]
        congr 1
        congr 1
        refine List.map_congr_left ?_
        intro k _
        simp [Function.comp]
        omega

/-- Helper: handleError never touches the job table. -/
theorem handleError_jobs_length (m : JobManager) :
    m.handleError.1.m_vspJobs.length = m.m_vspJobs.length := by
  unfold JobManager.handleError
  by_cases h1 : m.m_eError = JobManagerError.jmeNoError <;>
    by_cases h2 : m.m_iRunning = 0 <;> simp [h1, h2]

/-- Helper: a dispatch tick never changes the number of table entries. -/
theorem checkNext_jobs_length (m : JobManager) :
    m.checkNext.1.m_vspJobs.length = m.m_vspJobs.length := by
  by_cases hb : 0 ≤ m.m_iAllowedErrors ∧ m.m_iAllowedErrors < m.m_iErrors
  · rw [checkNext_budget_eq m hb.1 hb.2]
    by_cases hr : m.m_iRunning = 0 <;> simp [hr]
  · by_cases herr : m.m_eError = JobManagerError.jmeNoError
    · by_cases hstop : m.m_bStop = true
      · rw [checkNext_stop_eq m hb herr hstop]
        by_cases hr : m.m_iRunning = 0 <;> simp [hr]
      · have hstop' : m.m_bStop = false := by
          simpa using hstop
        by_cases hfin : m.m_iFinished < (m.m_vspJobs.length : Int)
        · rw [checkNext_dispatch_eq m hb herr hstop' hfin]
          exact (handleError_jobs_length m.startNext).trans
            (startNext_spec m).1.2.2.2.2.2.2
        · rw [checkNext_complete_eq m hb herr hstop' hfin]
          by_cases ht : m.m_timerInterval > 0 <;> simp [ht]
    · rw [checkNext_error_eq m hb herr]
      by_cases hr : m.m_iRunning = 0 <;> simp [hr]

/-- Helper: the dispatch loop never changes the number of table entries. -/
theorem checkNextN_jobs_length (n : Nat) (m : JobManager) :
    (checkNextN n m).1.m_vspJobs.length = m.m_vspJobs.length := by
  induction n generalizing m with
  | zero => simp [checkNextN]
  | succ n ih =>
      simp only [checkNextN]
      exact (ih m.checkNext.1).trans (checkNext_jobs_length m)

/-- Helper: the state reached by handleJobFinished is the dispatch loop
applied to the bookkeeping state (the trailing if only selects events). -/
theorem handleJobFinished_state (m : JobManager) (tid : Nat) :
    (m.handleJobFinished tid).1 =
      (checkNextN
        (max 1 (min (jobFinishedBookkeeping m tid).1.m_quWaiting.length
          (jobFinishedBookkeeping m tid).1.m_quIdle.length))
        (jobFinishedBookkeeping m tid).1).1 := by
  unfold JobManager.handleJobFinished
  by_cases h : (checkNextN
      (max 1 (min (jobFinishedBookkeeping m tid).1.m_quWaiting.length
        (jobFinishedBookkeeping m tid).1.m_quIdle.length))
      (jobFinishedBookkeeping m tid).1).1.m_eStatus = Status.sFinished <;>
    simp [h]

/-- C8: when the worker thread tid reports completion of table job i, the
bookkeeping phase of handleJobFinished (which runs before any dispatch)
drains the job's spawned children: each is marked spawned and appended in
order to the tail of the job table and its index to the tail of the
waiting queue; the finished job itself is cleaned up only AFTER the drain
(its table slot holds cleanup of its core with the spawn list consumed);
and the full completion handler grows the job table by exactly the number
of spawned children. -/
theorem C8_spawn_drain (m : JobManager) (tid : Nat) (i : Nat) (job : SJob)
    (h1 : m.m_vThreads.getD tid (-1) = Int.ofNat i)
    (h2 : m.m_vspJobs.get? i = some job) :
    (jobFinishedBookkeeping m tid).1.m_vspJobs =
      (m.m_vspJobs.set i (SJob.mk (AbstractJob.cleanup job.core) job.deps []))
        ++ job.spawns.map SJob.markSpawned ∧
    (jobFinishedBookkeeping m tid).1.m_quWaiting =
      m.m_quWaiting ++
        (List.range job.spawns.length).map (fun k => m.m_vspJobs.length + k) ∧
    (jobFinishedBookkeeping m tid).1.m_iFinished = m.m_iFinished + 1 ∧
    (m.handleJobFinished tid).1.m_vspJobs.length =
      m.m_vspJobs.length + job.spawns.length := by
  have hlt : i < m.m_vspJobs.length := (List.get?_eq_some.mp h2).1
  have hInd : (m.m_vThreads.getD tid (-1)).toNat = i := by
    rw [h1]
    rfl
  have hbook : (jobFinishedBookkeeping m tid).1.m_vspJobs =
      (m.m_vspJobs.set i (SJob.mk (AbstractJob.cleanup job.core) job.deps []))
        ++ job.spawns.map SJob.markSpawned ∧
      (jobFinishedBookkeeping m tid).1.m_quWaiting =
        m.m_quWaiting ++
          (List.range job.spawns.length).map (fun k => m.m_vspJobs.length + k) ∧
      (jobFinishedBookkeeping m tid).1.m_iFinished = m.m_iFinished + 1 := by
    simp only [jobFinishedBookkeeping, hInd, h2, drainSpawns_eq]
    by_cases he : job.core.m_iError ≠ 0 <;>
      simp [he, List.set_append_left _ _ hlt]
  refine ⟨hbook.1, hbook.2.1, hbook.2.2, ?_⟩
  rw [handleJobFinished_state, checkNextN_jobs_length]
  rw [hbook.1]
  simp [List.length_append, List.length_set, hlt]

/-- Witness for C8_spawn_drain: the one-worker manager whose single job
spawns two children ends its bookkeeping phase with the children at table
indices 1 and 2, waiting queue [1, 2], and three table entries overall. -/
theorem C8_spawn_drain_witness :
    (jobFinishedBookkeeping mC8started 0).1.m_quWaiting =
      mC8started.m_quWaiting ++
        (List.range spawnerJob.spawns.length).map
          (fun k => mC8started.m_vspJobs.length + k) ∧
    (mC8started.handleJobFinished 0).1.m_vspJobs.length =
      mC8started.m_vspJobs.length + spawnerJob.spawns.length := by
  have h := C8_spawn_drain mC8started 0 0 spawnerJob (by decide) rfl
  exact ⟨h.2.1, h.2.2.2⟩

/-- C9: on the inner manager's completed signal during a run, the session
manager pauses, emits the per-session finished event with the
pre-increment session index, increments the index, and — while the index
is still below sessionCount — arms the inter-session timer for
startNextSession; exactly when the index reaches sessionCount the status
becomes sFinished and the overall completed signal is emitted instead.
When the timer fires, startNextSession (inner manager not stopped) clears
the inner manager, sets its allowed errors, populates it via
initNextSession and starts it, ending in status sRunning (or sError with
jmeCouldNotStart if start refuses). -/
theorem C9_session_transitions (sm : AbstractSessionManager) (c : Int)
    (hrun : sm.m_eStatus = SMStatus.sRunning) :
    ((sm.handleFinished c).1.m_iSessionIndex = sm.m_iSessionIndex + 1) ∧
    (sm.m_iSessionIndex + 1 < c →
      (sm.handleFinished c).1.m_eStatus = SMStatus.sPaused ∧
      (sm.handleFinished c).2 =
        [SMEvent.smSessionFinished sm.m_iSessionIndex,
         SMEvent.smScheduleNext sm.m_iSessionTimeout]) ∧
    (¬ sm.m_iSessionIndex + 1 < c →
      (sm.handleFinished c).1.m_eStatus = SMStatus.sFinished ∧
      (sm.handleFinished c).2 =
        [SMEvent.smSessionFinished sm.m_iSessionIndex, SMEvent.smFinished]) ∧
    (∀ (a : Int) (f : JobManager → JobManager) (sm2 : AbstractSessionManager),
      sm2.m_jm.isStopped = false →
      ((sm2.startNextSession a f).1.m_jm =
        ((f ((sm2.m_jm.clear).setAllowedErrors a)).start).1 ∧
       (((f ((sm2.m_jm.clear).setAllowedErrors a)).start).2.1 = true →
        (sm2.startNextSession a f).1.m_eStatus = SMStatus.sRunning ∧
        (sm2.startNextSession a f).2 = []))) := by
  refine ⟨?_, ?_, ?_, ?_⟩
  · by_cases hc : sm.m_iSessionIndex + 1 < c <;>
      simp [AbstractSessionManager.handleFinished, hrun, hc]
  · intro hc
    simp [AbstractSessionManager.handleFinished, hrun, hc]
  · intro hc
    simp [AbstractSessionManager.handleFinished, hrun, hc]
  · intro a f sm2 hstop
    by_cases hok : ((f ((sm2.m_jm.clear).setAllowedErrors a)).start).2.1 = true
    · constructor
      · simp [AbstractSessionManager.startNextSession, hstop, hok]
      · intro _
        constructor <;> simp [AbstractSessionManager.startNextSession, hstop, hok]
    · have hok' : ((f ((sm2.m_jm.clear).setAllowedErrors a)).start).2.1 = false := by
        simpa using hok
      constructor
      · simp [AbstractSessionManager.startNextSession, hstop, hok']
      · intro h
        exact absurd h hok

/-- Witness for C9_session_transitions: the concrete mid-run session
manager at index 0 with timeout 5 paused-and-scheduled under sessionCount
2, finished under sessionCount 1, and startNextSession with a trivial
initializer runs the (empty) next session to sRunning. -/
theorem C9_session_transitions_witness :
    ((smC9.handleFinished 2).1.m_eStatus = SMStatus.sPaused ∧
     (smC9.handleFinished 2).2 =
       [SMEvent.smSessionFinished 0, SMEvent.smScheduleNext 5]) ∧
    ((smC9.handleFinished 1).1.m_eStatus = SMStatus.sFinished ∧
     (smC9.handleFinished 1).2 =
       [SMEvent.smSessionFinished 0, SMEvent.smFinished]) ∧
    ((smC9.startNextSession 0 id).1.m_eStatus = SMStatus.sRunning ∧
     (smC9.startNextSession 0 id).2 = []) := by
  refine ⟨?_, ?_, ?_⟩
  · exact (C9_session_transitions smC9 2 rfl).2.1 (by decide)
  · exact (C9_session_transitions smC9 1 rfl).2.2.1 (by decide)
  · exact ((C9_session_transitions smC9 1 rfl).2.2.2 0 id smC9 rfl).2 rfl

/-- C10: the single completion signal of exec obeys the precedence
error over stopped over finished: signalError iff the body left a non-zero
error code; signalStopped iff the error code is zero and the cancel flag is
set; signalFinished iff the error code is zero and the cancel flag clear. -/
theorem C10_exec_signal_precedence (j : AbstractJob) (e : Int) (s : Bool) :
    ((AbstractJob.exec j e s).2 = JobSignal.sigError ↔ e ≠ 0) ∧
    ((AbstractJob.exec j e s).2 = JobSignal.sigStopped ↔ (e = 0 ∧ s = true)) ∧
    ((AbstractJob.exec j e s).2 = JobSignal.sigFinished ↔ (e = 0 ∧ s = false)) := by
  by_cases he : e = 0 <;> by_cases hs : s = true <;>
    simp [AbstractJob.exec, he, hs]

end ThreadingLib
